import Mathlib

/-!
Verification of the session-persistence and message-reconciliation subsystem of
the Lyzr_Agent repository.

The development shallowly embeds the Python sources:
  * `openai_model.py`   — `LiteLlm._safe_serialize` and the message-construction
    plus repair-pass portion of `LiteLlm.generate_content_async`
    (the spec's "Message Reconciler", `to_backend_messages`);
  * `postgres_session_service.py` — the event codec
    (`_serialize_event` / `_deserialize_event`), the session store
    (`create_session`, `get_session`, `append_event`, `delete_session`) and the
    retry wrapper `_retry_on_connection_error`;
  * `server.py`         — the turn coordinator (`stream_generator`,
    `stream_with_persistence`) and the MongoDB hydration logic.

Python values reachable from tool responses are modelled by the inductive
`PyVal`, which distinguishes values exactly by the dynamic tests the Python
code performs (`hasattr(x, "value")`, `isinstance(x, dict)`,
`isinstance(x, list)`, basic JSON scalars, `hasattr(x, "__dict__")`, fallback).
Database state is modelled as an association list keyed by the composite
session key; the JSON text column `events_json` is modelled by the list of
serialized event records it encodes.
-/

namespace Lyzr

/-! ### Character-level string helpers

Executable counterparts of Python's `in` (substring) test and `str.lower`,
defined over `List Char` so that proofs can evaluate them. -/

/-- Does `cand` occur at the head of `l`?  (Helper for the substring test.) -/
def headMatches : List Char → List Char → Bool
  | [], _ => true
  | _ :: _, [] => false
  | c :: cs, d :: ds => c == d && headMatches cs ds

/-- Does `needle` occur contiguously inside `hay`?  Models Python's
`needle in hay` on strings. -/
def charsContain (hay needle : List Char) : Bool :=
  match hay with
  | [] => headMatches needle []
  | _ :: rest => headMatches needle hay || charsContain rest needle

/-- Substring test on `String`, models Python `pat in s`. -/
def strContains (s pat : String) : Bool := charsContain s.data pat.data

/-- ASCII lower-casing of one character (all characters the retry logic
compares are ASCII). -/
def lowerChar (c : Char) : Char :=
  if 'A' ≤ c ∧ c ≤ 'Z' then Char.ofNat (c.toNat + 32) else c

/-- Models Python `s.lower()` for the ASCII strings the code compares. -/
def strLower (s : String) : String := ⟨s.data.map lowerChar⟩

/-! ### The Python value domain

`PyVal` classifies a Python value by the dynamic tests `_safe_serialize`
(`openai_model.py` lines 15-42) and `_serialize_event`
(`postgres_session_service.py` lines 117-143) perform on it:

  * `pstr`/`pint`/`pbool`/`pnone` — the basic JSON scalars
    (`isinstance(obj, (str, int, float, bool, type(None)))`; numeric values
    are modelled by `Int`);
  * `plist` — `isinstance(obj, list)`;
  * `pdict` — `isinstance(obj, dict)` (keys are strings, as produced by the
    tool layer);
  * `pres v others` — an object for which `hasattr(obj, "value")` holds (a
    tool `Result` wrapper); its `__dict__` is `("value", v) :: others`;
  * `pobj attrs r` — any other object exposing `__dict__ = attrs`, with
    `str(obj) = r`;
  * `pslots r` — an object with neither a `value` attribute nor a `__dict__`
    (e.g. a slotted object), with `str(obj) = r`. -/
inductive PyVal where
  | pstr (s : String)
  | pint (n : Int)
  | pbool (b : Bool)
  | pnone
  | plist (xs : List PyVal)
  | pdict (kvs : List (String × PyVal))
  | pres (v : PyVal) (others : List (String × PyVal))
  | pobj (attrs : List (String × PyVal)) (reprS : String)
  | pslots (reprS : String)

/-- Models Python's `str(obj)` on the values above.  Only the fact that it is
a total `String`-valued function matters to the code under verification (the
resulting text is stored or shipped verbatim), so container renderings are
kept schematic. -/
def pyStr : PyVal → String
  | .pstr s => s
  | .pint n => toString n
  | .pbool b => if b then "True" else "False"
  | .pnone => "None"
  | .plist _ => "<list>"
  | .pdict _ => "<dict>"
  | .pres _ _ => "<result object>"
  | .pobj _ r => r
  | .pslots r => r

mutual
/-- `LiteLlm._safe_serialize` (`openai_model.py` lines 15-42):
recursively unwrap `value` attributes, recurse into dicts and lists, keep
basic JSON scalars, flatten `__dict__`-bearing objects to a dict of their
non-private attributes and recurse, and stringify everything else.

The `__dict__` branch in the source recurses on the dict comprehension
`{k: v for k, v in obj.__dict__.items() if not k.startswith('_')}`; here
that composition (filter the private keys, then serialize each value) is
written directly as `safeSerializePub`.  The `except` arm guarding the
comprehension cannot fire (dict comprehension over `__dict__.items()` does
not raise) and is therefore not modelled. -/
def safeSerialize : PyVal → PyVal
  | .pstr s => .pstr s
  | .pint n => .pint n
  | .pbool b => .pbool b
  | .pnone => .pnone
  | .plist xs => .plist (safeSerializeList xs)
  | .pdict kvs => .pdict (safeSerializeKVs kvs)
  | .pres v _ => safeSerialize v
  | .pobj attrs _ => .pdict (safeSerializePub attrs)
  | .pslots r => .pstr r

/-- Pointwise `_safe_serialize` over the items of a list. -/
def safeSerializeList : List PyVal → List PyVal
  | [] => []
  | x :: xs => safeSerialize x :: safeSerializeList xs

/-- Pointwise `_safe_serialize` over the values of a dict. -/
def safeSerializeKVs : List (String × PyVal) → List (String × PyVal)
  | [] => []
  | (k, v) :: kvs => (k, safeSerialize v) :: safeSerializeKVs kvs

/-- `_safe_serialize` over a `__dict__`: drop private (underscore-prefixed)
attributes and serialize the remaining values. -/
def safeSerializePub : List (String × PyVal) → List (String × PyVal)
  | [] => []
  | (k, v) :: kvs =>
    if k.startsWith "_" then safeSerializePub kvs
    else (k, safeSerialize v) :: safeSerializePub kvs
end

mutual
/-- Characterizes the values on which Python's `json.dumps` succeeds:
JSON scalars, and lists/dicts of such values.  `pres`, `pobj` and `pslots`
model objects, on which `json.dumps` raises `TypeError`. -/
def jsonSafe : PyVal → Bool
  | .pstr _ => true
  | .pint _ => true
  | .pbool _ => true
  | .pnone => true
  | .plist xs => jsonSafeList xs
  | .pdict kvs => jsonSafeKVs kvs
  | .pres _ _ => false
  | .pobj _ _ => false
  | .pslots _ => false

/-- `jsonSafe` for every item of a list. -/
def jsonSafeList : List PyVal → Bool
  | [] => true
  | x :: xs => jsonSafe x && jsonSafeList xs

/-- `jsonSafe` for every value of a dict. -/
def jsonSafeKVs : List (String × PyVal) → Bool
  | [] => true
  | (_, v) :: kvs => jsonSafe v && jsonSafeKVs kvs
end

/-- JSON string escaping for the characters relevant here. -/
def jsonEscapeChar (c : Char) : String :=
  if c = '\\' then "\\\\"
  else if c = '"' then "\\\""
  else if c = '\n' then "\\n"
  else if c = '\t' then "\\t"
  else if c = '\r' then "\\r"
  else String.singleton c

/-- Escape a string for inclusion in JSON output. -/
def jsonEscape (s : String) : String := String.join (s.data.map jsonEscapeChar)

mutual
/-- Models Python's `json.dumps` on JSON-safe values.  On the object
constructors (where `json.dumps` would raise) it returns a placeholder;
the reconciler only ever applies it after `safeSerialize`, whose output is
JSON-safe (`safeSerialize_jsonSafe`), so those branches are unreachable
there. -/
def jsonDumps : PyVal → String
  | .pstr s => "\"" ++ jsonEscape s ++ "\""
  | .pint n => toString n
  | .pbool b => if b then "true" else "false"
  | .pnone => "null"
  | .plist xs => "[" ++ jsonDumpsList xs ++ "]"
  | .pdict kvs => "\x7b" ++ jsonDumpsKVs kvs ++ "\x7d"
  | .pres _ _ => "<unserializable>"
  | .pobj _ _ => "<unserializable>"
  | .pslots _ => "<unserializable>"

/-- Comma-separated `jsonDumps` of list items. -/
def jsonDumpsList : List PyVal → String
  | [] => ""
  | [x] => jsonDumps x
  | x :: xs => jsonDumps x ++ ", " ++ jsonDumpsList xs

/-- Comma-separated `jsonDumps` of dict entries. -/
def jsonDumpsKVs : List (String × PyVal) → String
  | [] => ""
  | [(k, v)] => "\"" ++ jsonEscape k ++ "\": " ++ jsonDumps v
  | (k, v) :: kvs => "\"" ++ jsonEscape k ++ "\": " ++ jsonDumps v ++ ", " ++ jsonDumpsKVs kvs
end

/-! ### The agent framework's data model (§3 of the spec)

`google.genai.types.Part` is exactly one of a text span, a tool-call request
(`FunctionCall`) or a tool-call result (`FunctionResponse`); an `Event` is an
author plus an optional `Content` (a role and an ordered part list). -/

/-- `types.FunctionCall`: optional correlation id, tool name, argument value
(a mapping in practice; kept general as `PyVal` because the code stores and
forwards it unexamined except for an `isinstance(args, dict)` test). -/
structure FunctionCall where
  id : Option String
  name : String
  args : PyVal

/-- `types.FunctionResponse`: correlation id, tool name, arbitrary response
payload. -/
structure FunctionResponse where
  id : Option String
  name : String
  response : PyVal

/-- `types.Part`: exactly one of text / function_call / function_response. -/
inductive Part where
  | text (s : String)
  | functionCall (fc : FunctionCall)
  | functionResponse (fr : FunctionResponse)

/-- `types.Content`: a role and an ordered sequence of parts. -/
structure Content where
  role : String
  parts : List Part

/-- `google.adk.events.event.Event`, restricted to the fields the subsystem
reads and writes: author and optional content. -/
structure Event where
  author : String
  content : Option Content

/-! ### The Message Reconciler
(`LiteLlm.generate_content_async`, `openai_model.py` lines 117-226)

The message-construction loop over `llm_request.contents` followed by the
repair pass.  The system-instruction message and the completion call itself
are outside the reconciliation logic and are not modelled. -/

/-- One entry of an assistant message's `tool_calls` list:
`{"id": ..., "type": "function", "function": {"name": ..., "arguments": ...}}`
with the constant `"type"` field kept as `ctype`. -/
structure ToolCall where
  id : String
  ctype : String
  name : String
  arguments : PyVal

/-- A backend (OpenAI-style) message dict.  `none` models both an absent key
and an explicit `None` value, matching every `msg.get(...)` access the code
performs; `tool_calls = some _` models presence of the `"tool_calls"` key. -/
structure BMsg where
  role : String
  content : Option String
  tool_call_id : Option String
  tool_calls : Option (List ToolCall)

/-- Python's `x or "call_unknown"` on an optional id (`None` and `""` are
falsy). -/
def pyOrCallUnknown : Option String → String
  | some s => if s != "" then s else "call_unknown"
  | none => "call_unknown"

/-- Python's `content_text or None`. -/
def strOrNone (s : String) : Option String :=
  if s != "" then some s else none

/-- The `arguments` field of an emitted tool call:
`json.dumps(args) if isinstance(args, dict) else args`. -/
def argumentsVal (args : PyVal) : PyVal :=
  match args with
  | .pdict kvs => .pstr (jsonDumps (.pdict kvs))
  | v => v

/-- The per-part loop of `generate_content_async` (lines 127-159): walk the
parts of one content, accumulating the concatenated text, the tool-call list
and the emitted tool-response messages.  A `text` part is appended only when
truthy (`if part.text:`); the `except` arm around `_safe_serialize` is
unreachable because `safeSerialize` is total. -/
def scanParts (parts : List Part) : String × List ToolCall × List BMsg :=
  parts.foldl
    (fun acc p =>
      match p with
      | .text s => if s != "" then (acc.1 ++ s, acc.2.1, acc.2.2) else acc
      | .functionCall fc =>
          (acc.1,
           acc.2.1 ++ [⟨pyOrCallUnknown fc.id, "function", fc.name, argumentsVal fc.args⟩],
           acc.2.2)
      | .functionResponse fr =>
          let serialized := safeSerialize fr.response
          let contentStr :=
            match serialized with
            | .pstr s => s
            | v => jsonDumps v
          (acc.1, acc.2.1,
           acc.2.2 ++ [⟨"tool", some contentStr, some (pyOrCallUnknown fr.id), none⟩]))
    ("", [], [])

/-- Messages emitted for one content (lines 118-175): tool-response messages
take precedence; else one assistant message carrying the tool calls; else a
plain text message; else nothing.  Role mapping: `"user"` stays `"user"`,
everything else (including `"model"`) becomes `"assistant"`. -/
def messagesForContent (c : Content) : List BMsg :=
  let role := if c.role == "user" then "user" else "assistant"
  let (contentText, toolCalls, toolResponses) := scanParts c.parts
  if !toolResponses.isEmpty then toolResponses
  else if !toolCalls.isEmpty then [⟨role, strOrNone contentText, none, some toolCalls⟩]
  else if contentText != "" then [⟨role, some contentText, none, none⟩]
  else []

/-- The contribution of one message to the responded-id set of the repair
pass: its `tool_call_id` when the message is a tool message with a truthy id
(`if msg.get("role") == "tool": ... if tc_id:`). -/
def toolIdOf (m : BMsg) : Option String :=
  if m.role == "tool" then
    match m.tool_call_id with
    | some tcId => if tcId != "" then some tcId else none
    | none => none
  else none

/-- Step 1 of the repair pass (lines 195-200): the set of `tool_call_id`s
that actually appear (truthy) on emitted tool messages. -/
def toolResponseIds (msgs : List BMsg) : List String :=
  msgs.filterMap toolIdOf

/-- Python's `msg.get("content")` truthiness (a non-empty string). -/
def contentTruthy : Option String → Bool
  | some s => s != ""
  | none => false

/-- A message with its `tool_calls` key removed (`new_msg.pop("tool_calls")`). -/
def dropToolCalls (m : BMsg) : BMsg :=
  { m with tool_calls := none }

/-- Step 2 of the repair pass, for one message (lines 202-224): for an
assistant message carrying `tool_calls`, keep only the calls whose id has a
response; if none remain, keep the message as plain text when it has truthy
content and drop it entirely otherwise.  All other messages pass through. -/
def repairMsg (ids : List String) (m : BMsg) : Option BMsg :=
  if m.role == "assistant" && m.tool_calls.isSome then
    let filtered := (m.tool_calls.getD []).filter (fun tc => ids.contains tc.id)
    if !filtered.isEmpty then some { m with tool_calls := some filtered }
    else if contentTruthy m.content then some (dropToolCalls m)
    else none
  else some m

/-- The full repair pass: collect the responded ids, then filter/rewrite every
message. -/
def repairPass (msgs : List BMsg) : List BMsg :=
  msgs.filterMap (repairMsg (toolResponseIds msgs))

/-- The spec's `to_backend_messages`: flatten the stored contents into backend
messages and run the repair pass (`generate_content_async` lines 117-226,
excluding the system message and the completion call). -/
def toBackendMessages (contents : List Content) : List BMsg :=
  repairPass (contents.flatMap messagesForContent)

/-- Modelled from the spec (§3/§6): the completion backend's acceptance
invariant, which the source only documents in the comment block at
`openai_model.py` lines 177-194 — every assistant message carrying
`tool_calls` must be immediately followed, contiguously, by tool-role
messages covering every id it lists.  Written from the spec's words for
comparison with what `toBackendMessages` actually guarantees. -/
def backendInvariantSpec : List BMsg → Bool
  | [] => true
  | m :: rest =>
      (if m.role == "assistant" && m.tool_calls.isSome then
        (m.tool_calls.getD []).all (fun tc =>
          (rest.takeWhile (fun m2 => m2.role == "tool")).any
            (fun m2 => m2.tool_call_id == some tc.id))
      else true)
      && backendInvariantSpec rest

/-- The covering property the repair pass actually establishes: every id
listed by an assistant message's `tool_calls` appears among the responded
tool-call ids of the same message list. -/
def assistantCallsCovered (msgs : List BMsg) : Prop :=
  ∀ m ∈ msgs, m.role = "assistant" →
    ∀ tcs, m.tool_calls = some tcs →
      ∀ tc ∈ tcs, tc.id ∈ toolResponseIds msgs

/-! ### The Event Codec
(`PostgresSessionService._serialize_event` / `_deserialize_event`,
`postgres_session_service.py` lines 96-195) -/

/-- The serialized form of one part (`part_dict`).  `emptyRec` is the empty
dict produced when a part's `text` is falsy (the empty string) and its other
fields are absent; in `functionCallRec` the id is `some _` exactly when the
serializer included the `"id"` key. -/
inductive PartRec where
  | emptyRec
  | textRec (s : String)
  | functionCallRec (id : Option String) (name : String) (args : PyVal)
  | functionResponseRec (id : Option String) (name : String) (response : PyVal)

/-- The serialized `content` dict: `{"role": ..., "parts": [...]}`. -/
structure ContentRec where
  role : String
  parts : List PartRec

/-- The serialized event dict: `{"author": ..., "content": ...}`. -/
structure EventRec where
  author : String
  content : Option ContentRec

/-- The single `value`-unwrap step of `_serialize_event` (lines 121-123):
`if hasattr(response_data, "value"): response_data = response_data.value`.
Unlike `_safe_serialize`, this does not recurse. -/
def unwrapValue : PyVal → PyVal
  | .pres v _ => v
  | v => v

/-- The one-level flatten step of `_serialize_event` (lines 125-130): if the
value is still an object exposing `__dict__` (and not a basic type), replace
it by the dict of its non-private attributes; attribute values are not
recursed into.  A `pres` object's `__dict__` is `("value", v) :: others`.
The `except` arm (fallback to `str`) guards a comprehension that cannot
raise and is not modelled. -/
def flattenObject : PyVal → PyVal
  | .pres v others => .pdict (List.filter (fun kv => !kv.1.startsWith "_") (("value", v) :: others))
  | .pobj attrs _ => .pdict (List.filter (fun kv => !kv.1.startsWith "_") attrs)
  | v => v

/-- The response normalization inside `_serialize_event` (lines 119-137):
unwrap a `value` attribute once, flatten a remaining object one level, then
keep the result if `json.dumps` succeeds on it and stringify it otherwise. -/
def normalizeResponse (v : PyVal) : PyVal :=
  let v1 := unwrapValue v
  let v2 := flattenObject v1
  if jsonSafe v2 then v2 else .pstr (pyStr v2)

/-- Serialization of one part (lines 105-144).  A text part is recorded only
when truthy; a function call's id is recorded only when truthy; a function
response's payload is normalized. -/
def serializePart (p : Part) : PartRec :=
  match p with
  | .text s => if s != "" then .textRec s else .emptyRec
  | .functionCall fc =>
      .functionCallRec
        (match fc.id with
         | some i => if i != "" then some i else none
         | none => none)
        fc.name fc.args
  | .functionResponse fr =>
      .functionResponseRec fr.id fr.name (normalizeResponse fr.response)

/-- `_serialize_event` (lines 96-151).  A present `Content` object is always
truthy in Python, so `content` is serialized exactly when present. -/
def serializeEvent (e : Event) : EventRec :=
  { author := e.author,
    content := e.content.map fun c =>
      { role := c.role, parts := c.parts.map serializePart } }

/-- Deserialization of one part (lines 160-185).  An empty part dict matches
no branch and contributes no part; the id of a function call is restored
when the `"id"` key is present (the guarded attribute assignment on
`types.FunctionCall` succeeds). -/
def deserializePart : PartRec → Option Part
  | .emptyRec => none
  | .textRec s => some (.text s)
  | .functionCallRec id name args => some (.functionCall ⟨id, name, args⟩)
  | .functionResponseRec id name response => some (.functionResponse ⟨id, name, response⟩)

/-- `_deserialize_event` (lines 153-195).  A present content dict
(`{"role": ..., "parts": [...]}`) is non-empty and hence truthy. -/
def deserializeEvent (r : EventRec) : Event :=
  { author := r.author,
    content := r.content.map fun c =>
      { role := c.role, parts := c.parts.filterMap deserializePart } }

/-- Observational equality of events as the spec's round-trip property states
it: same author, same content role, and the same sequence of
text / tool-call / tool-result parts. -/
def obsEq (a b : Event) : Prop :=
  a.author = b.author ∧
  a.content.map (fun c => c.role) = b.content.map (fun c => c.role) ∧
  a.content.map (fun c => c.parts) = b.content.map (fun c => c.parts)

/-- A part that survives the codec unchanged: a truthy text, a function call
whose id is absent or truthy, or a function response whose payload is already
JSON-safe (so normalization keeps it). -/
def goodPart : Part → Bool
  | .text s => s != ""
  | .functionCall fc =>
      match fc.id with
      | some i => i != ""
      | none => true
  | .functionResponse fr => jsonSafe fr.response

/-- An event all of whose parts survive the codec unchanged. -/
def goodEvent (e : Event) : Bool :=
  match e.content with
  | none => true
  | some c => c.parts.all goodPart

/-! ### The Session Store
(`PostgresSessionService`, `postgres_session_service.py` lines 24-37 and
197-329).  One row per session, keyed by the composite string
`app_name:user_id:session_id`; the JSON-encoded `events_json` text column is
modelled by the list of event records it encodes, and timestamps by `Nat`. -/

/-- The `adk_sessions` row (`SessionRecord`, lines 24-37). -/
structure SessionRecord where
  app_name : String
  user_id : String
  session_id : String
  events_json : List EventRec
  created_at : Nat
  updated_at : Nat

/-- The table: an association list from composite key to row.  The primary
key is unique because rows are only ever added under a key that was absent. -/
abbrev Store := List (String × SessionRecord)

/-- `_make_session_key` (lines 92-94). -/
def makeSessionKey (app_name user_id session_id : String) : String :=
  app_name ++ ":" ++ user_id ++ ":" ++ session_id

/-- `db.query(SessionRecord).filter_by(id=session_key).first()`. -/
def lookupRecord : Store → String → Option SessionRecord
  | [], _ => none
  | (k, r) :: rest, key => if k == key then some r else lookupRecord rest key

/-- Replace the (first) row stored under `key`. -/
def updateRecord : Store → String → SessionRecord → Store
  | [], _, _ => []
  | (k, r) :: rest, key, record =>
    if k == key then (key, record) :: rest
    else (k, r) :: updateRecord rest key record

/-- Number of rows stored under `key` (for the no-duplication property). -/
def countKey (db : Store) (key : String) : Nat :=
  (db.filter (fun kr => kr.1 == key)).length

/-- The in-memory `google.adk.sessions.session.Session` handle, restricted to
the fields the service populates. -/
structure Session where
  app_name : String
  user_id : String
  id : String
  events : List Event

/-- The composite key of a session handle. -/
def sessionKey (s : Session) : String :=
  makeSessionKey s.app_name s.user_id s.id

/-- `create_session` (lines 197-240): if a row already exists, materialize
and return it; otherwise insert a fresh row with an empty event list and
return an empty session.  Returns the session together with the resulting
store state. -/
def createSession (db : Store) (app_name user_id session_id : String) (now : Nat) :
    Session × Store :=
  let key := makeSessionKey app_name user_id session_id
  match lookupRecord db key with
  | some record =>
      (⟨app_name, user_id, session_id, record.events_json.map deserializeEvent⟩, db)
  | none =>
      let record : SessionRecord := ⟨app_name, user_id, session_id, [], now, now⟩
      (⟨app_name, user_id, session_id, []⟩, db ++ [(key, record)])

/-- The body `_get_session_inner` of `get_session` (lines 249-270):
materialize the row by decoding every stored event record, in order. -/
def getSessionInner (db : Store) (app_name user_id session_id : String) : Option Session :=
  match lookupRecord db (makeSessionKey app_name user_id session_id) with
  | none => none
  | some record =>
      some ⟨app_name, user_id, session_id, record.events_json.map deserializeEvent⟩

/-- `append_event` (lines 295-329): raise (`Except.error`) if the row is
gone, leaving both the store and the caller's handle untouched; otherwise
append the encoded event to the stored list, bump `updated_at`, and mutate
the in-memory handle.  The returned store and session are the post-call
states. -/
def appendEvent (db : Store) (session : Session) (event : Event) (now : Nat) :
    Except String Unit × Store × Session :=
  let key := sessionKey session
  match lookupRecord db key with
  | none => (.error ("Session not found: " ++ key), db, session)
  | some record =>
      let events := record.events_json ++ [serializeEvent event]
      let record' := { record with events_json := events, updated_at := now }
      (.ok (), updateRecord db key record',
       { session with events := session.events ++ [event] })

/-- `delete_session` (lines 274-293): remove the row; a no-op when absent. -/
def deleteSession (db : Store) (app_name user_id session_id : String) : Store :=
  let key := makeSessionKey app_name user_id session_id
  db.filter (fun kr => kr.1 != key)

/-! ### The retry wrapper
(`PostgresSessionService._retry_on_connection_error`, lines 73-90) -/

/-- The exceptions the retry wrapper distinguishes: `sqlalchemy.exc.
OperationalError` (with its message) versus anything else. -/
inductive PyError where
  | opError (msg : String)
  | otherError (msg : String)
deriving DecidableEq, Repr

/-- The connection-fault test (line 79):
`"SSL connection has been closed" in str(e) or "connection" in str(e).lower()`,
applicable only to `OperationalError`. -/
def isConnectionError : PyError → Bool
  | .opError msg =>
      strContains msg "SSL connection has been closed" ||
      strContains (strLower msg) "connection"
  | .otherError _ => false

/-- Observable side effects of the retry wrapper, used to state that the pool
is disposed (and hence recreated on next use) between attempts, with a fixed
sleep. -/
inductive RetryEffect where
  | attemptCall (i : Nat)
  | sleepFor (secs : Nat)
  | disposeEngine
deriving DecidableEq, Repr

/-- The `for attempt in range(max_retries)` loop (lines 75-90), with the
remaining iteration count as fuel (`fuel = max_retries - i`); `attempts i`
is the outcome of the `i`-th call of `func`.  On a connection-classified
`OperationalError` that is not the last attempt (`attempt < max_retries - 1`,
i.e. `fuel ≠ 0` after this call), sleep `delay`, dispose the engine and
retry; any other error propagates immediately (a non-`OperationalError` is
not even caught — same observable behaviour).  The `return None` fallthrough
after the loop is unreachable for a positive retry budget. -/
def retryLoop {α : Type} (attempts : Nat → Except PyError (Option α)) (delay : Nat) :
    Nat → Nat → Except PyError (Option α) × List RetryEffect
  | 0, _ => (.ok none, [])
  | fuel + 1, i =>
    match attempts i with
    | .ok a => (.ok a, [.attemptCall i])
    | .error e =>
      if isConnectionError e && (fuel != 0) then
        let rest := retryLoop attempts delay fuel (i + 1)
        (rest.1, .attemptCall i :: .sleepFor delay :: .disposeEngine :: rest.2)
      else (.error e, [.attemptCall i])

/-- `_retry_on_connection_error(func)` with its default bounds
`max_retries=3, delay=1`. -/
def retryOnConnectionError {α : Type} (attempts : Nat → Except PyError (Option α)) :
    Except PyError (Option α) × List RetryEffect :=
  retryLoop attempts 1 3 0

/-- `get_session` (lines 242-272): the materializing read wrapped in the
retry loop.  `faults i` says whether the `i`-th attempt hits a database
exception instead of completing; a completed attempt returns
`getSessionInner` of the (unchanged) store. -/
def getSession (db : Store) (app_name user_id session_id : String)
    (faults : Nat → Option PyError) :
    Except PyError (Option Session) × List RetryEffect :=
  retryOnConnectionError fun i =>
    match faults i with
    | some e => .error e
    | none => .ok (getSessionInner db app_name user_id session_id)

/-! ### The Turn Streaming Coordinator
(`server.py`: `stream_generator` lines 62-137 and
`chat.stream_with_persistence` lines 161-178) -/

/-- One `{role, content}` entry of the secondary (MongoDB) chat-session
record; a missing or `None` content is modelled by the empty string, which
the truthiness test treats identically. -/
structure ChatMessage where
  role : String
  content : String
deriving DecidableEq, Repr

/-- The text-only event the hydration loop constructs for one stored message
(lines 92-103): author and content role are the stored role, with a single
text part. -/
def textEvent (role text : String) : Event :=
  ⟨role, some ⟨role, [.text text]⟩⟩

/-- The hydration loop (lines 86-105): for each stored message in order, skip
it if its content is falsy, else append the corresponding text-only event via
the session service; an append failure propagates to the setup handler. -/
def hydrateMessages : Store → Session → List ChatMessage → Nat →
    Except String (Session × Store)
  | db, session, [], _ => .ok (session, db)
  | db, session, msg :: rest, now =>
    if msg.content == "" then hydrateMessages db session rest now
    else
      match appendEvent db session (textEvent msg.role msg.content) now with
      | (.error err, _, _) => .error err
      | (.ok _, db', session') => hydrateMessages db' session' rest now

/-- The session-setup phase of `stream_generator` (lines 70-109): get the
session (fault-free here; faults surface through the setup error path); if
absent, create it and — when the secondary store holds a non-empty message
list for this id — replay those messages into it. -/
def setupSession (db : Store) (mongoMessages : Option (List ChatMessage))
    (user_id session_id : String) (now : Nat) : Except String (Session × Store) :=
  match getSessionInner db "agents" user_id session_id with
  | some existing => .ok (existing, db)
  | none =>
      let created := createSession db "agents" user_id session_id now
      match mongoMessages with
      | some msgs =>
          if msgs.length > 0 then hydrateMessages created.2 created.1 msgs now
          else .ok (created.1, created.2)
      | none => .ok (created.1, created.2)

/-- One frame of the caller-visible stream: a `data: {"content": ...}` chunk,
the `data: [DONE]` sentinel, or the `data: {"session_id": ...}` chunk. -/
inductive Frame where
  | contentFrame (text : String)
  | doneFrame
  | sessionIdFrame (session_id : String)
deriving DecidableEq, Repr

/-- The text chunks `stream_generator` forwards for one agent event
(lines 126-129): one frame per truthy text part of a present content. -/
def eventTextFrames (e : Event) : List Frame :=
  match e.content with
  | none => []
  | some c =>
      c.parts.filterMap fun p =>
        match p with
        | .text s => if s != "" then some (.contentFrame s) else none
        | _ => none

/-- `stream_generator` (lines 62-137) as a function from the turn's outcomes
to the emitted frame sequence.  `setupResult` is the outcome of the setup
phase; on failure the generator yields one error frame and returns (skipping
the sentinel).  Otherwise `runnerEvents` are the agent-loop events consumed
before `runError` (if any) aborted the loop; a run failure contributes one
error frame; the `[DONE]` sentinel follows. -/
def streamGenerator (setupResult : Except String Unit) (runnerEvents : List Event)
    (runError : Option String) : List Frame :=
  match setupResult with
  | .error _ => [.contentFrame "Error: Failed to initialize chat session."]
  | .ok _ =>
      runnerEvents.flatMap eventTextFrames ++
      (match runError with
       | some msg => [.contentFrame ("Error: " ++ msg)]
       | none => []) ++
      [.doneFrame]

/-- `chat.stream_with_persistence` (lines 161-178): forward every chunk of
`stream_generator`, then (after persisting the accumulated text to the
secondary store) emit the `{"session_id": ...}` frame. -/
def streamWithPersistence (setupResult : Except String Unit) (runnerEvents : List Event)
    (runError : Option String) (session_id : String) : List Frame :=
  streamGenerator setupResult runnerEvents runError ++ [.sessionIdFrame session_id]

/-- Is a frame a `{"content": ...}` frame? -/
def isContentFrame : Frame → Bool
  | .contentFrame _ => true
  | _ => false

/-- Modelled from the spec (§6 "Stream transport"): the claimed caller-visible
stream shape — discrete content frames, then the `{session_id}` frame, then
the terminal sentinel as the last frame. -/
def claimedStreamShape (frames : List Frame) (session_id : String) : Prop :=
  ∃ cs, (∀ f ∈ cs, isContentFrame f = true) ∧
    frames = cs ++ [.sessionIdFrame session_id, .doneFrame]

/-! ## Theorems -/

/-! ### Normalization totality (C4) -/

mutual
theorem safeSerialize_jsonSafe : ∀ (v : PyVal), jsonSafe (safeSerialize v) = true
  | .pstr _ => rfl
  | .pint _ => rfl
  | .pbool _ => rfl
  | .pnone => rfl
  | .plist xs => by simp [safeSerialize, jsonSafe, safeSerializeList_jsonSafe xs]
  | .pdict kvs => by simp [safeSerialize, jsonSafe, safeSerializeKVs_jsonSafe kvs]
  | .pres v _ => safeSerialize_jsonSafe v
  | .pobj attrs _ => by simp [safeSerialize, jsonSafe, safeSerializePub_jsonSafe attrs]
  | .pslots _ => rfl

theorem safeSerializeList_jsonSafe :
    ∀ (xs : List PyVal), jsonSafeList (safeSerializeList xs) = true
  | [] => rfl
  | x :: xs => by
    simp [safeSerializeList, jsonSafeList, safeSerialize_jsonSafe x,
      safeSerializeList_jsonSafe xs]

theorem safeSerializeKVs_jsonSafe :
    ∀ (kvs : List (String × PyVal)), jsonSafeKVs (safeSerializeKVs kvs) = true
  | [] => rfl
  | (_, v) :: kvs => by
    simp [safeSerializeKVs, jsonSafeKVs, safeSerialize_jsonSafe v,
      safeSerializeKVs_jsonSafe kvs]

theorem safeSerializePub_jsonSafe :
    ∀ (kvs : List (String × PyVal)), jsonSafeKVs (safeSerializePub kvs) = true
  | [] => rfl
  | (k, v) :: kvs => by
    by_cases h : k.startsWith "_" <;>
      simp [safeSerializePub, h, jsonSafeKVs, safeSerialize_jsonSafe v,
        safeSerializePub_jsonSafe kvs]
end

theorem safeSerializeList_eq_map : ∀ (xs : List PyVal),
    safeSerializeList xs = xs.map safeSerialize
  | [] => rfl
  | x :: xs => by simp [safeSerializeList, safeSerializeList_eq_map xs]

theorem safeSerializeKVs_eq_map : ∀ (kvs : List (String × PyVal)),
    safeSerializeKVs kvs = kvs.map fun kv => (kv.1, safeSerialize kv.2)
  | [] => rfl
  | (k, v) :: kvs => by simp [safeSerializeKVs, safeSerializeKVs_eq_map kvs]

theorem normalizeResponse_jsonSafe (v : PyVal) :
    jsonSafe (normalizeResponse v) = true := by
  unfold normalizeResponse
  by_cases h : jsonSafe (flattenObject (unwrapValue v)) = true
  · simp [h]
  · simp [h, jsonSafe]

/-- C4: the tool-response normalization routine (`LiteLlm._safe_serialize`)
is total and JSON-safe on every input value, and it applies the
unwrap / flatten / stringify rule recursively to every element of nested
mappings and sequences; the event codec's per-response normalization
(`_serialize_event`) likewise always yields a JSON-encodable value. -/
theorem c4_normalization_total :
    (∀ v : PyVal, jsonSafe (safeSerialize v) = true) ∧
    (∀ xs : List PyVal, safeSerialize (.plist xs) = .plist (xs.map safeSerialize)) ∧
    (∀ kvs : List (String × PyVal),
      safeSerialize (.pdict kvs) = .pdict (kvs.map fun kv => (kv.1, safeSerialize kv.2))) ∧
    (∀ v : PyVal, jsonSafe (normalizeResponse v) = true) :=
  ⟨safeSerialize_jsonSafe,
   fun xs => by simp [safeSerialize, safeSerializeList_eq_map xs],
   fun kvs => by simp [safeSerialize, safeSerializeKVs_eq_map kvs],
   normalizeResponse_jsonSafe⟩

/-! ### Event-codec round-trip (C3) -/

theorem normalizeResponse_of_jsonSafe {v : PyVal} (h : jsonSafe v = true) :
    normalizeResponse v = v := by
  cases v <;> simp_all [normalizeResponse, unwrapValue, flattenObject, jsonSafe]

theorem deserializePart_serializePart {p : Part} (h : goodPart p = true) :
    deserializePart (serializePart p) = some p := by
  cases p with
  | text s =>
      simp [goodPart] at h
      simp [serializePart, deserializePart, h]
  | functionCall fc =>
      obtain ⟨id, name, args⟩ := fc
      cases id with
      | none => simp [serializePart, deserializePart]
      | some i =>
          simp [goodPart] at h
          simp [serializePart, deserializePart, h]
  | functionResponse fr =>
      obtain ⟨id, name, resp⟩ := fr
      simp [goodPart] at h
      simp [serializePart, deserializePart, normalizeResponse_of_jsonSafe h]

theorem roundtripParts : ∀ (parts : List Part), (∀ p ∈ parts, goodPart p = true) →
    (parts.map serializePart).filterMap deserializePart = parts
  | [], _ => rfl
  | p :: rest, h => by
      simp only [List.map_cons, List.filterMap_cons,
        deserializePart_serializePart (h p (List.mem_cons_self p rest))]
      exact congrArg (p :: ·)
        (roundtripParts rest fun q hq => h q (List.mem_cons_of_mem p hq))

/-- Round-trip on the nose for events all of whose parts survive the codec. -/
theorem roundtripEvent_eq {e : Event} (h : goodEvent e = true) :
    deserializeEvent (serializeEvent e) = e := by
  obtain ⟨author, content⟩ := e
  cases content with
  | none => rfl
  | some c =>
      obtain ⟨role, parts⟩ := c
      simp only [goodEvent, List.all_eq_true] at h
      show Event.mk author
        (some ⟨role, (parts.map serializePart).filterMap deserializePart⟩) =
        Event.mk author (some ⟨role, parts⟩)
      rw [roundtripParts parts h]

theorem obsEq_refl (e : Event) : obsEq e e := ⟨rfl, rfl, rfl⟩

/-- C3 (amended): `deserialize(serialize(event))` is observationally equal to
the original event — same author, content role and part sequence — for every
event whose text parts are non-empty, whose function-call ids are absent or
non-empty, and whose function-response payloads are JSON-serializable.  (The
truthiness tests in the codec drop an empty text part and an empty
function-call id, so the unrestricted claim fails; see the counterexample.) -/
theorem c3_roundtrip_amended (e : Event) (h : goodEvent e = true) :
    deserializeEvent (serializeEvent e) = e ∧
      obsEq (deserializeEvent (serializeEvent e)) e :=
  ⟨roundtripEvent_eq h, by rw [roundtripEvent_eq h]; exact obsEq_refl e⟩

/-- C3 witness: a three-part event (text, identified tool call, JSON-safe
tool result) satisfies the goodness condition and round-trips. -/
theorem c3_roundtrip_witness :
    goodEvent ⟨"model", some ⟨"model",
      [.text "hi",
       .functionCall ⟨some "call_7", "list_files", .pdict [("n", .pint 3)]⟩,
       .functionResponse ⟨some "call_7", "list_files", .pstr "ok"⟩]⟩⟩ = true ∧
    obsEq
      (deserializeEvent (serializeEvent ⟨"model", some ⟨"model",
        [.text "hi",
         .functionCall ⟨some "call_7", "list_files", .pdict [("n", .pint 3)]⟩,
         .functionResponse ⟨some "call_7", "list_files", .pstr "ok"⟩]⟩⟩))
      ⟨"model", some ⟨"model",
        [.text "hi",
         .functionCall ⟨some "call_7", "list_files", .pdict [("n", .pint 3)]⟩,
         .functionResponse ⟨some "call_7", "list_files", .pstr "ok"⟩]⟩⟩ :=
  ⟨rfl,
   (c3_roundtrip_amended ⟨"model", some ⟨"model",
      [.text "hi",
       .functionCall ⟨some "call_7", "list_files", .pdict [("n", .pint 3)]⟩,
       .functionResponse ⟨some "call_7", "list_files", .pstr "ok"⟩]⟩⟩ rfl).2⟩

/-- C3 counterexample: an event holding a single empty text part — a legal
`Part` per §3 — does not round-trip: serialization records an empty part
dict, which deserialization drops, so the part sequence changes. -/
theorem c3_counterexample :
    ¬ obsEq
      (deserializeEvent (serializeEvent ⟨"user", some ⟨"user", [.text ""]⟩⟩))
      ⟨"user", some ⟨"user", [.text ""]⟩⟩ := by
  intro h
  have h3 := h.2.2
  simp [serializeEvent, deserializeEvent, serializePart, deserializePart] at h3

/-! ### The repair pass (C1, C2) -/

theorem repairMsg_some_fields {ids : List String} {m m' : BMsg}
    (h : repairMsg ids m = some m') :
    m'.role = m.role ∧ m'.content = m.content ∧ m'.tool_call_id = m.tool_call_id := by
  simp only [repairMsg] at h
  split at h
  · split at h
    · exact Option.some.inj h ▸ ⟨rfl, rfl, rfl⟩
    · split at h
      · exact Option.some.inj h ▸ ⟨rfl, rfl, rfl⟩
      · exact absurd h (by simp)
  · exact Option.some.inj h ▸ ⟨rfl, rfl, rfl⟩

theorem repairMsg_none_role {ids : List String} {m : BMsg}
    (h : repairMsg ids m = none) : m.role = "assistant" := by
  simp only [repairMsg] at h
  split at h
  · next hcond =>
      exact eq_of_beq (Bool.and_elim_left hcond)
  · exact absurd h (by simp)

theorem toolIdOf_congr {m m' : BMsg} (hrole : m'.role = m.role)
    (hid : m'.tool_call_id = m.tool_call_id) : toolIdOf m' = toolIdOf m := by
  simp only [toolIdOf, hrole, hid]

theorem toolIdOf_of_assistant {m : BMsg} (h : m.role = "assistant") :
    toolIdOf m = none := by
  simp [toolIdOf, h]

theorem toolResponseIds_repairPass (ids : List String) :
    ∀ (msgs : List BMsg),
      toolResponseIds (msgs.filterMap (repairMsg ids)) = toolResponseIds msgs
  | [] => rfl
  | m :: rest => by
      cases hrep : repairMsg ids m with
      | none =>
          have hm : toolIdOf m = none :=
            toolIdOf_of_assistant (repairMsg_none_role hrep)
          simp only [toolResponseIds, List.filterMap_cons, hrep, hm]
          exact toolResponseIds_repairPass ids rest
      | some m' =>
          obtain ⟨h1, _, h3⟩ := repairMsg_some_fields hrep
          simp only [toolResponseIds, List.filterMap_cons, hrep, toolIdOf_congr h1 h3]
          cases htid : toolIdOf m with
          | none =>
              simp only [htid]
              exact toolResponseIds_repairPass ids rest
          | some tid =>
              simp only [htid]
              exact congrArg (tid :: ·) (toolResponseIds_repairPass ids rest)

theorem repairPass_covered (msgs : List BMsg) :
    assistantCallsCovered (repairPass msgs) := by
  intro m' hm' hrole tcs htcs tc htc
  have hids : toolResponseIds (repairPass msgs) = toolResponseIds msgs :=
    toolResponseIds_repairPass (toolResponseIds msgs) msgs
  rw [hids]
  rw [repairPass] at hm'
  obtain ⟨m, _, hrep⟩ := List.mem_filterMap.mp hm'
  simp only [repairMsg] at hrep
  split at hrep
  · next hcond =>
      split at hrep
      · next hfil =>
          have heq := Option.some.inj hrep
          subst heq
          have htcs2 : some ((m.tool_calls.getD []).filter
              (fun tc => (toolResponseIds msgs).contains tc.id)) = some tcs := htcs
          have hF := Option.some.inj htcs2
          rw [← hF] at htc
          have hcontains := (List.mem_filter.mp htc).2
          simpa [List.contains] using List.elem_iff.mp hcontains
      · split at hrep
        · have heq := Option.some.inj hrep
          subst heq
          exact absurd htcs (by simp [dropToolCalls])
        · exact absurd hrep (by simp)
  · next hcond =>
      have heq := Option.some.inj hrep
      subst heq
      exact absurd hcond (by simp [hrole, htcs])

/-- C1: after the repair pass, `toBackendMessages` never returns an assistant
message whose `tool_calls` reference an id missing from the emitted tool
messages' `tool_call_id`s; and for any assistant message all of whose tool
calls are unmatched, the repair keeps it as plain text (without the
`tool_calls` key) when it has truthy content and drops it entirely
otherwise. -/
theorem c1_repair_invariant :
    (∀ contents : List Content, assistantCallsCovered (toBackendMessages contents)) ∧
    (∀ (ids : List String) (m : BMsg) (tcs : List ToolCall),
      m.role = "assistant" → m.tool_calls = some tcs →
      (∀ tc ∈ tcs, tc.id ∉ ids) →
      repairMsg ids m =
        if contentTruthy m.content then some (dropToolCalls m) else none) := by
  constructor
  · intro contents
    exact repairPass_covered (contents.flatMap messagesForContent)
  · intro ids m tcs hrole htcs hnone
    obtain ⟨role, content, tcid, tcls⟩ := m
    change role = "assistant" at hrole
    change tcls = some tcs at htcs
    subst hrole
    subst htcs
    have hfil : tcs.filter (fun tc => decide (tc.id ∈ ids)) = [] := by
      refine List.filter_eq_nil_iff.mpr ?_
      intro tc htc
      simpa using hnone tc htc
    by_cases hct : contentTruthy content = true <;>
      simp [repairMsg, hfil, dropToolCalls, hct]

/-- C1 witness: a matched tool call survives the repair and its id is covered;
an assistant message whose only tool call is unmatched is kept as plain text
when it has content and dropped when it has none. -/
theorem c1_repair_witness :
    "call_1" ∈ toolResponseIds (toBackendMessages
      [⟨"model", [.functionCall ⟨some "call_1", "get_files", .pdict []⟩]⟩,
       ⟨"tool", [.functionResponse ⟨some "call_1", "get_files", .pstr "ok"⟩]⟩]) ∧
    repairMsg [] ⟨"assistant", some "hello", none,
        some [⟨"orphan", "function", "f", .pnone⟩]⟩ =
      some ⟨"assistant", some "hello", none, none⟩ ∧
    repairMsg [] ⟨"assistant", none, none,
        some [⟨"orphan", "function", "f", .pnone⟩]⟩ = none := by
  refine ⟨?_, ?_, ?_⟩
  · have hcov := c1_repair_invariant.1
      [⟨"model", [.functionCall ⟨some "call_1", "get_files", .pdict []⟩]⟩,
       ⟨"tool", [.functionResponse ⟨some "call_1", "get_files", .pstr "ok"⟩]⟩]
    refine hcov ⟨"assistant", none, none,
        some [⟨"call_1", "function", "get_files",
          .pstr (jsonDumps (.pdict []))⟩]⟩ ?_ rfl _ rfl
      ⟨"call_1", "function", "get_files", .pstr (jsonDumps (.pdict []))⟩ ?_
    · rw [show toBackendMessages
          [⟨"model", [.functionCall ⟨some "call_1", "get_files", .pdict []⟩]⟩,
           ⟨"tool", [.functionResponse ⟨some "call_1", "get_files", .pstr "ok"⟩]⟩] =
          [⟨"assistant", none, none,
            some [⟨"call_1", "function", "get_files", .pstr (jsonDumps (.pdict []))⟩]⟩,
           ⟨"tool", some "ok", some "call_1", none⟩] from rfl]
      exact List.mem_cons_self _ _
    · exact List.mem_cons_self _ _
  · have h := c1_repair_invariant.2 []
      ⟨"assistant", some "hello", none, some [⟨"orphan", "function", "f", .pnone⟩]⟩
      [⟨"orphan", "function", "f", .pnone⟩] rfl rfl
      (fun tc _ => List.not_mem_nil tc.id)
    simpa [contentTruthy, dropToolCalls] using h
  · have h := c1_repair_invariant.2 []
      ⟨"assistant", none, none, some [⟨"orphan", "function", "f", .pnone⟩]⟩
      [⟨"orphan", "function", "f", .pnone⟩] rfl rfl
      (fun tc _ => List.not_mem_nil tc.id)
    simpa [contentTruthy] using h

theorem mem_toolResponseIds {msgs : List BMsg} {tid : String}
    (h : tid ∈ toolResponseIds msgs) :
    ∃ tm ∈ msgs, tm.role = "tool" ∧ tm.tool_call_id = some tid := by
  obtain ⟨m, hmem, hid⟩ := List.mem_filterMap.mp h
  simp only [toolIdOf] at hid
  split at hid
  · next hrole =>
      split at hid
      · next heq =>
          split at hid
          · exact ⟨m, hmem, eq_of_beq hrole,
              by rw [heq, Option.some.inj hid]⟩
          · exact absurd hid (by simp)
      · exact absurd hid (by simp)
  · exact absurd hid (by simp)

/-- C2 (amended): every assistant message of `toBackendMessages` that carries
`tool_calls` references only ids that are covered by some tool-role message
*somewhere* in the returned list.  (The source's repair pass guarantees
coverage, not the spec's stronger contiguous-adjacency property; see the
counterexample.) -/
theorem c2_backend_coverage_amended :
    ∀ contents : List Content, ∀ m ∈ toBackendMessages contents,
      m.role = "assistant" → ∀ tcs, m.tool_calls = some tcs →
        ∀ tc ∈ tcs, ∃ tm ∈ toBackendMessages contents,
          tm.role = "tool" ∧ tm.tool_call_id = some tc.id := by
  intro contents m hm hrole tcs htcs tc htc
  exact mem_toolResponseIds
    (repairPass_covered (contents.flatMap messagesForContent) m hm hrole tcs htcs tc htc)

/-- C2 counterexample: an assistant tool-call content followed by a text
content and then the matching tool result passes the repair pass unchanged,
yet the assistant message is *not* immediately followed by its tool message,
so the backend invariant (contiguous coverage) fails on the returned list. -/
theorem c2_counterexample :
    backendInvariantSpec (toBackendMessages
      [⟨"model", [.functionCall ⟨some "call_1", "f", .pdict []⟩]⟩,
       ⟨"model", [.text "thinking"]⟩,
       ⟨"tool", [.functionResponse ⟨some "call_1", "f", .pstr "ok"⟩]⟩]) = false := rfl

/-- C2 witness: in a well-interleaved history the covering tool message
promised by the amended claim is found. -/
theorem c2_backend_witness :
    ∃ tm ∈ toBackendMessages
      [⟨"model", [.functionCall ⟨some "call_9", "g", .pdict []⟩]⟩,
       ⟨"tool", [.functionResponse ⟨some "call_9", "g", .pstr "done"⟩]⟩],
      tm.role = "tool" ∧ tm.tool_call_id = some "call_9" := by
  have h := c2_backend_coverage_amended
    [⟨"model", [.functionCall ⟨some "call_9", "g", .pdict []⟩]⟩,
     ⟨"tool", [.functionResponse ⟨some "call_9", "g", .pstr "done"⟩]⟩]
    ⟨"assistant", none, none,
      some [⟨"call_9", "function", "g", .pstr (jsonDumps (.pdict []))⟩]⟩
    (by rw [show toBackendMessages
          [⟨"model", [.functionCall ⟨some "call_9", "g", .pdict []⟩]⟩,
           ⟨"tool", [.functionResponse ⟨some "call_9", "g", .pstr "done"⟩]⟩] =
          [⟨"assistant", none, none,
            some [⟨"call_9", "function", "g", .pstr (jsonDumps (.pdict []))⟩]⟩,
           ⟨"tool", some "done", some "call_9", none⟩] from rfl]
        exact List.mem_cons_self _ _)
    rfl _ rfl
    ⟨"call_9", "function", "g", .pstr (jsonDumps (.pdict []))⟩
    (List.mem_cons_self _ _)
  exact h

/-! ### Session store (C5, C6, C10) -/

theorem getLast?_snoc {α : Type} (xs : List α) (a : α) :
    (xs ++ [a]).getLast? = some a := by
  rw [List.getLast?_append_cons]
  rfl

theorem lookupRecord_append_self (db : Store) (key : String) (r : SessionRecord)
    (h : lookupRecord db key = none) :
    lookupRecord (db ++ [(key, r)]) key = some r := by
  induction db with
  | nil => simp [lookupRecord]
  | cons kr rest ih =>
      obtain ⟨k, r0⟩ := kr
      by_cases hk : (k == key) = true
      · simp [lookupRecord, hk] at h
      · simp only [List.cons_append, lookupRecord, hk, if_false, Bool.false_eq_true] at h ⊢
        exact ih h

theorem lookupRecord_update (db : Store) (key : String) (rNew : SessionRecord)
    {rOld : SessionRecord} (h : lookupRecord db key = some rOld) :
    lookupRecord (updateRecord db key rNew) key = some rNew := by
  induction db with
  | nil => simp [lookupRecord] at h
  | cons kr rest ih =>
      obtain ⟨k, r0⟩ := kr
      by_cases hk : (k == key) = true
      · simp [updateRecord, lookupRecord, hk]
      · simp only [lookupRecord, hk, if_false, Bool.false_eq_true] at h
        simp only [updateRecord, hk, if_false, Bool.false_eq_true, lookupRecord]
        exact ih h

/-- C5: session creation is idempotent — a second create with the same key
returns the same materialized event list, leaves the store untouched (in
particular it does not duplicate the row), and when a row already exists the
first create returns its materialized state without erroring or overwriting
it. -/
theorem c5_create_idempotent (db : Store) (app_name user_id session_id : String)
    (n1 n2 : Nat) :
    (createSession (createSession db app_name user_id session_id n1).2
        app_name user_id session_id n2).1.events =
      (createSession db app_name user_id session_id n1).1.events ∧
    (createSession (createSession db app_name user_id session_id n1).2
        app_name user_id session_id n2).2 =
      (createSession db app_name user_id session_id n1).2 ∧
    countKey (createSession (createSession db app_name user_id session_id n1).2
        app_name user_id session_id n2).2 (makeSessionKey app_name user_id session_id) =
      countKey (createSession db app_name user_id session_id n1).2
        (makeSessionKey app_name user_id session_id) ∧
    (∀ record, lookupRecord db (makeSessionKey app_name user_id session_id) = some record →
      (createSession db app_name user_id session_id n1).1.events =
        record.events_json.map deserializeEvent ∧
      (createSession db app_name user_id session_id n1).2 = db) := by
  cases h : lookupRecord db (makeSessionKey app_name user_id session_id) with
  | some record =>
      refine ⟨?_, ?_, ?_, ?_⟩
      · simp [createSession, h]
      · simp [createSession, h]
      · simp [createSession, h]
      · intro r hr
        obtain rfl := Option.some.inj hr
        simp [createSession, h]
  | none =>
      have h2 := lookupRecord_append_self db (makeSessionKey app_name user_id session_id)
        ⟨app_name, user_id, session_id, [], n1, n1⟩ h
      refine ⟨?_, ?_, ?_, ?_⟩
      · simp [createSession, h, h2]
      · simp [createSession, h, h2]
      · simp [createSession, h, h2]
      · intro r hr
        exact absurd hr (by simp)

/-- C5 witness: on a store already holding the key, both creates return the
stored (here one-event) list and neither changes the store. -/
theorem c5_create_witness :
    (createSession (createSession
        [("app:u:s", ⟨"app", "u", "s", [⟨"user", none⟩], 0, 0⟩)]
        "app" "u" "s" 1).2 "app" "u" "s" 2).1.events =
      (createSession [("app:u:s", ⟨"app", "u", "s", [⟨"user", none⟩], 0, 0⟩)]
        "app" "u" "s" 1).1.events ∧
    (createSession [("app:u:s", ⟨"app", "u", "s", [⟨"user", none⟩], 0, 0⟩)]
        "app" "u" "s" 1).1.events = [deserializeEvent ⟨"user", none⟩] ∧
    (createSession [("app:u:s", ⟨"app", "u", "s", [⟨"user", none⟩], 0, 0⟩)]
        "app" "u" "s" 1).2 =
      [("app:u:s", ⟨"app", "u", "s", [⟨"user", none⟩], 0, 0⟩)] := by
  have h := c5_create_idempotent
    [("app:u:s", ⟨"app", "u", "s", [⟨"user", none⟩], 0, 0⟩)] "app" "u" "s" 1 2
  have h4 := h.2.2.2 ⟨"app", "u", "s", [⟨"user", none⟩], 0, 0⟩ rfl
  exact ⟨h.1, h4.1, h4.2⟩

/-- C6 (amended): appending to an existing session succeeds, makes the event
visible in the caller's handle without a re-read, and a subsequent get
returns exactly one more event whose last element is the codec round-trip
image of the appended event — equal to the event itself whenever the event's
parts survive the codec (`goodEvent`); appending to a deleted key fails with
a NotFound-style error. -/
theorem c6_append_then_get (db : Store) (session : Session) (event : Event) (now : Nat) :
    (∀ record, lookupRecord db (sessionKey session) = some record →
      (appendEvent db session event now).1 = .ok () ∧
      (appendEvent db session event now).2.2.events = session.events ++ [event] ∧
      ∃ s, getSessionInner (appendEvent db session event now).2.1
            session.app_name session.user_id session.id = some s ∧
        s.events.length = record.events_json.length + 1 ∧
        s.events.getLast? = some (deserializeEvent (serializeEvent event)) ∧
        (goodEvent event = true → s.events.getLast? = some event)) ∧
    (lookupRecord db (sessionKey session) = none →
      ∃ msg, (appendEvent db session event now).1 = .error msg) := by
  constructor
  · intro record h
    have hupd := lookupRecord_update db (sessionKey session)
      ({ record with events_json := record.events_json ++ [serializeEvent event], updated_at := now }) h
    refine ⟨?_, ?_, ?_⟩
    · simp [appendEvent, h]
    · simp [appendEvent, h]
    · refine ⟨⟨session.app_name, session.user_id, session.id,
        (record.events_json ++ [serializeEvent event]).map deserializeEvent⟩, ?_, ?_, ?_, ?_⟩
      · simp only [appendEvent, h]
        simp only [getSessionInner]
        rw [show makeSessionKey session.app_name session.user_id session.id =
          sessionKey session from rfl]
        rw [hupd]
      · simp
      · simp [getLast?_snoc]
      · intro hg
        simp [getLast?_snoc, roundtripEvent_eq hg]
  · intro h
    exact ⟨"Session not found: " ++ sessionKey session, by simp [appendEvent, h]⟩

/-- C6 counterexample: appending an event holding a single empty text part to
a fresh (zero-event) session makes get return one event, but that event is
the codec image, not the appended event — "with `e` last" fails for this
`e`. -/
theorem c6_counterexample :
    ∃ s, getSessionInner
        (appendEvent [("agents:u:s", ⟨"agents", "u", "s", [], 0, 0⟩)]
          ⟨"agents", "u", "s", []⟩ ⟨"user", some ⟨"user", [.text ""]⟩⟩ 1).2.1
        "agents" "u" "s" = some s ∧
      s.events.length = 0 + 1 ∧
      s.events.getLast? ≠ some ⟨"user", some ⟨"user", [.text ""]⟩⟩ := by
  refine ⟨⟨"agents", "u", "s", [⟨"user", some ⟨"user", []⟩⟩]⟩, rfl, rfl, ?_⟩
  intro h
  simp [List.getLast?] at h

/-- C10: append is atomic on failure — when the backing row is absent the
call returns the NotFound error and both the store and the caller's
in-memory handle are exactly what they were before the call. -/
theorem c10_append_atomic (db : Store) (session : Session) (event : Event) (now : Nat)
    (h : lookupRecord db (sessionKey session) = none) :
    appendEvent db session event now =
      (.error ("Session not found: " ++ sessionKey session), db, session) := by
  simp [appendEvent, h]

/-- C10 witness: after deleting the only row, an append on the stale handle
errors and leaves the (now empty) store and the handle untouched. -/
theorem c10_append_atomic_witness :
    lookupRecord (deleteSession [("agents:u:s", ⟨"agents", "u", "s", [], 0, 0⟩)]
        "agents" "u" "s")
      (sessionKey ⟨"agents", "u", "s", [⟨"user", none⟩]⟩) = none ∧
    appendEvent (deleteSession [("agents:u:s", ⟨"agents", "u", "s", [], 0, 0⟩)]
        "agents" "u" "s")
      ⟨"agents", "u", "s", [⟨"user", none⟩]⟩ ⟨"model", none⟩ 7 =
      (.error ("Session not found: " ++ sessionKey ⟨"agents", "u", "s", [⟨"user", none⟩]⟩),
       deleteSession [("agents:u:s", ⟨"agents", "u", "s", [], 0, 0⟩)] "agents" "u" "s",
       ⟨"agents", "u", "s", [⟨"user", none⟩]⟩) :=
  ⟨rfl,
   c10_append_atomic
     (deleteSession [("agents:u:s", ⟨"agents", "u", "s", [], 0, 0⟩)] "agents" "u" "s")
     ⟨"agents", "u", "s", [⟨"user", none⟩]⟩ ⟨"model", none⟩ 7 rfl⟩

/-- C6 witness: appending a well-formed text event to a session whose row
holds one stored event makes get return two events with the appended event
last, and the handle sees it immediately. -/
theorem c6_append_witness :
    (appendEvent [("agents:u:s", ⟨"agents", "u", "s", [⟨"user", none⟩], 0, 0⟩)]
        ⟨"agents", "u", "s", [deserializeEvent ⟨"user", none⟩]⟩
        ⟨"model", some ⟨"model", [.text "hello"]⟩⟩ 3).1 = .ok () ∧
    (appendEvent [("agents:u:s", ⟨"agents", "u", "s", [⟨"user", none⟩], 0, 0⟩)]
        ⟨"agents", "u", "s", [deserializeEvent ⟨"user", none⟩]⟩
        ⟨"model", some ⟨"model", [.text "hello"]⟩⟩ 3).2.2.events =
      [deserializeEvent ⟨"user", none⟩] ++ [⟨"model", some ⟨"model", [.text "hello"]⟩⟩] ∧
    ∃ s, getSessionInner
        (appendEvent [("agents:u:s", ⟨"agents", "u", "s", [⟨"user", none⟩], 0, 0⟩)]
          ⟨"agents", "u", "s", [deserializeEvent ⟨"user", none⟩]⟩
          ⟨"model", some ⟨"model", [.text "hello"]⟩⟩ 3).2.1 "agents" "u" "s" = some s ∧
      s.events.length = 1 + 1 ∧
      s.events.getLast? = some ⟨"model", some ⟨"model", [.text "hello"]⟩⟩ := by
  have h := (c6_append_then_get
    [("agents:u:s", ⟨"agents", "u", "s", [⟨"user", none⟩], 0, 0⟩)]
    ⟨"agents", "u", "s", [deserializeEvent ⟨"user", none⟩]⟩
    ⟨"model", some ⟨"model", [.text "hello"]⟩⟩ 3).1
    ⟨"agents", "u", "s", [⟨"user", none⟩], 0, 0⟩ rfl
  obtain ⟨h1, h2, s, hs, hlen, _, hgood⟩ := h
  exact ⟨h1, h2, s, hs, hlen, hgood rfl⟩

/-! ### Retry-on-connection-error (C7) -/

theorem retryLoop_attempt_bound {α : Type} (attempts : Nat → Except PyError (Option α))
    (d : Nat) : ∀ (fuel i : Nat),
    ((retryLoop attempts d fuel i).2.filter (fun ef =>
      match ef with | .attemptCall _ => true | _ => false)).length ≤ fuel
  | 0, _ => by simp [retryLoop]
  | fuel + 1, i => by
      rw [retryLoop]
      cases hA : attempts i with
      | ok a => simp
      | error e =>
          by_cases hc : (isConnectionError e && (fuel != 0)) = true
          · have := retryLoop_attempt_bound attempts d fuel (i + 1)
            simp [hc]
            omega
          · simp [hc]

/-- Fault-free reads go through the retry wrapper in one attempt, returning
exactly the materializing read's result. -/
theorem getSession_no_faults (db : Store) (app_name user_id session_id : String) :
    getSession db app_name user_id session_id (fun _ => none) =
      (.ok (getSessionInner db app_name user_id session_id), [.attemptCall 0]) := by
  simp [getSession, retryOnConnectionError, retryLoop]

/-- C7: during get, a connection-classified fault on the first attempt is
retried — after the fixed 1-second sleep and an engine dispose (pool
recreation) — and a successful second attempt returns its result without
surfacing the fault; an error of any other class propagates immediately
after a single attempt; and no call ever makes more than the fixed bound of
3 attempts. -/
theorem c7_get_retry (db : Store) (app_name user_id session_id : String)
    (faults : Nat → Option PyError) (e : PyError) :
    (faults 0 = some e → isConnectionError e = true → faults 1 = none →
      getSession db app_name user_id session_id faults =
        (.ok (getSessionInner db app_name user_id session_id),
         [.attemptCall 0, .sleepFor 1, .disposeEngine, .attemptCall 1])) ∧
    (faults 0 = some e → isConnectionError e = false →
      getSession db app_name user_id session_id faults = (.error e, [.attemptCall 0])) ∧
    ((getSession db app_name user_id session_id faults).2.filter (fun ef =>
      match ef with | .attemptCall _ => true | _ => false)).length ≤ 3 := by
  refine ⟨?_, ?_, ?_⟩
  · intro h0 hc h1
    simp [getSession, retryOnConnectionError, retryLoop, h0, h1, hc]
  · intro h0 hc
    simp [getSession, retryOnConnectionError, retryLoop, h0, hc]
  · exact retryLoop_attempt_bound _ 1 3 0

/-- C7 witness: a concrete connection-closed fault on attempt 0 followed by a
clean attempt 1 yields the read result with the dispose between the two
attempts; a concrete non-connection error propagates at once. -/
theorem c7_get_retry_witness :
    getSession [] "agents" "u" "s"
      (fun i => if i = 0 then some (.opError "server closed the Connection unexpectedly")
                else none) =
      (.ok (getSessionInner [] "agents" "u" "s"),
       [.attemptCall 0, .sleepFor 1, .disposeEngine, .attemptCall 1]) ∧
    getSession [] "agents" "u" "s"
      (fun i => if i = 0 then some (.otherError "division by zero") else none) =
      (.error (.otherError "division by zero"), [.attemptCall 0]) := by
  constructor
  · exact (c7_get_retry [] "agents" "u" "s"
      (fun i => if i = 0 then some (.opError "server closed the Connection unexpectedly")
                else none)
      (.opError "server closed the Connection unexpectedly")).1 rfl (by decide) rfl
  · exact (c7_get_retry [] "agents" "u" "s"
      (fun i => if i = 0 then some (.otherError "division by zero") else none)
      (.otherError "division by zero")).2.1 rfl rfl

/-! ### Hydration from the secondary store (C8) -/

theorem hydrateMessages_spec :
    ∀ (msgs : List ChatMessage) (db : Store) (session : Session) (now : Nat)
      (record : SessionRecord),
      lookupRecord db (sessionKey session) = some record →
      ∃ session' db',
        hydrateMessages db session msgs now = .ok (session', db') ∧
        session'.app_name = session.app_name ∧
        session'.user_id = session.user_id ∧
        session'.id = session.id ∧
        session'.events = session.events ++
          (msgs.filter (fun m => m.content != "")).map
            (fun m => textEvent m.role m.content) ∧
        ∃ record', lookupRecord db' (sessionKey session) = some record' ∧
          record'.events_json = record.events_json ++
            (msgs.filter (fun m => m.content != "")).map
              (fun m => serializeEvent (textEvent m.role m.content))
  | [], db, session, _, record, h =>
      ⟨session, db, rfl, rfl, rfl, rfl, by simp, record, h, by simp⟩
  | msg :: rest, db, session, now, record, h => by
      by_cases hc : (msg.content == "") = true
      · have hne : (msg.content != "") = false := by simp [bne, hc]
        obtain ⟨s', db', h1, h2, h3, h4, h5, r', h6, h7⟩ :=
          hydrateMessages_spec rest db session now record h
        refine ⟨s', db', ?_, h2, h3, h4, ?_, r', h6, ?_⟩
        · rw [hydrateMessages, if_pos hc]
          exact h1
        · rw [List.filter_cons_of_neg (by simp [hne])]
          exact h5
        · rw [List.filter_cons_of_neg (by simp [hne])]
          exact h7
      · have hne : (msg.content != "") = true := by simp [bne]; simpa [bne] using hc
        have happ : appendEvent db session (textEvent msg.role msg.content) now =
            (.ok (), updateRecord db (sessionKey session)
              ({ record with
                  events_json := record.events_json ++
                    [serializeEvent (textEvent msg.role msg.content)],
                  updated_at := now }),
             { session with
                events := session.events ++ [textEvent msg.role msg.content] }) := by
          simp [appendEvent, h]
        have hupd := lookupRecord_update db (sessionKey session)
          ({ record with
              events_json := record.events_json ++
                [serializeEvent (textEvent msg.role msg.content)],
              updated_at := now }) h
        obtain ⟨s', db', h1, h2, h3, h4, h5, r', h6, h7⟩ :=
          hydrateMessages_spec rest
            (updateRecord db (sessionKey session)
              ({ record with
                  events_json := record.events_json ++
                    [serializeEvent (textEvent msg.role msg.content)],
                  updated_at := now }))
            ({ session with
                events := session.events ++ [textEvent msg.role msg.content] })
            now
            ({ record with
                events_json := record.events_json ++
                  [serializeEvent (textEvent msg.role msg.content)],
                updated_at := now })
            hupd
        refine ⟨s', db', ?_, h2, h3, h4, ?_, r', h6, ?_⟩
        · rw [hydrateMessages, if_neg (by simp [hc]), happ]
          exact h1
        · rw [List.filter_cons_of_pos (by simp [hne]), h5]
          simp
        · rw [List.filter_cons_of_pos (by simp [hne]), h7]
          simp

/-- C8: when the durable store has no row for the session and the secondary
store holds a (non-empty) message list, the coordinator creates the session
and replays, in stored order, one text-only event per entry with non-empty
content, skipping empty-content entries — both in the returned in-memory
session and in the durable row. -/
theorem c8_hydration (db : Store) (user_id session_id : String)
    (msgs : List ChatMessage) (now : Nat)
    (habsent : lookupRecord db (makeSessionKey "agents" user_id session_id) = none)
    (hne : msgs ≠ []) :
    ∃ session' db',
      setupSession db (some msgs) user_id session_id now = .ok (session', db') ∧
      session'.events = (msgs.filter (fun m => m.content != "")).map
        (fun m => textEvent m.role m.content) ∧
      ∃ record',
        lookupRecord db' (makeSessionKey "agents" user_id session_id) = some record' ∧
        record'.events_json = (msgs.filter (fun m => m.content != "")).map
          (fun m => serializeEvent (textEvent m.role m.content)) := by
  have hget : getSessionInner db "agents" user_id session_id = none := by
    simp [getSessionInner, habsent]
  have hcreate : createSession db "agents" user_id session_id now =
      (⟨"agents", user_id, session_id, []⟩,
       db ++ [(makeSessionKey "agents" user_id session_id,
         ⟨"agents", user_id, session_id, [], now, now⟩)]) := by
    simp [createSession, habsent]
  have hlen : msgs.length > 0 := List.length_pos.mpr hne
  have hlook := lookupRecord_append_self db (makeSessionKey "agents" user_id session_id)
    ⟨"agents", user_id, session_id, [], now, now⟩ habsent
  obtain ⟨s', db', h1, _, _, _, h5, r', h6, h7⟩ :=
    hydrateMessages_spec msgs
      (db ++ [(makeSessionKey "agents" user_id session_id,
        ⟨"agents", user_id, session_id, [], now, now⟩)])
      ⟨"agents", user_id, session_id, []⟩ now
      ⟨"agents", user_id, session_id, [], now, now⟩ hlook
  refine ⟨s', db', ?_, ?_, r', h6, ?_⟩
  · simp only [setupSession, hget, hcreate]
    simp only [hlen, if_pos]
    exact h1
  · simpa using h5
  · simpa using h7

/-- C8 witness: hydrating the spec's two-message record `[user: "hi",
assistant: "hello"]` into an absent session yields exactly the two text
events, in order, in both the session and the stored row. -/
theorem c8_hydration_witness :
    ∃ session' db',
      setupSession [] (some [⟨"user", "hi"⟩, ⟨"assistant", "hello"⟩]) "u" "s" 0 =
        .ok (session', db') ∧
      session'.events = [textEvent "user" "hi", textEvent "assistant" "hello"] ∧
      ∃ record',
        lookupRecord db' (makeSessionKey "agents" "u" "s") = some record' ∧
        record'.events_json = [serializeEvent (textEvent "user" "hi"),
          serializeEvent (textEvent "assistant" "hello")] := by
  have h := c8_hydration [] "u" "s" [⟨"user", "hi"⟩, ⟨"assistant", "hello"⟩] 0 rfl
    (by decide)
  simpa using h

/-! ### Stream frame shape (C9) -/

theorem eventTextFrames_content (e : Event) :
    ∀ f ∈ eventTextFrames e, isContentFrame f = true := by
  intro f hf
  obtain ⟨author, content⟩ := e
  cases content with
  | none => simp [eventTextFrames] at hf
  | some c =>
      simp only [eventTextFrames] at hf
      obtain ⟨p, _, hp⟩ := List.mem_filterMap.mp hf
      cases p with
      | text s =>
          by_cases hs : (s != "") = true
          · simp only [hs, if_true] at hp
            rw [← Option.some.inj hp]
            rfl
          · simp [hs] at hp
      | functionCall fc => simp at hp
      | functionResponse fr => simp at hp

/-- C9 (amended): every caller-visible stream consists of zero or more
content frames — a failure contributing a readable error frame — followed by
the `[DONE]` sentinel *when session setup succeeded* (on setup failure the
sentinel is skipped), and then the `{session_id}` frame, which is always the
last frame.  (The source emits the sentinel before the session-id frame, and
omits it on the setup-failure path; the claimed order — session id before
sentinel, nothing after the sentinel — fails; see the counterexample.) -/
theorem c9_stream_frames_amended (setupResult : Except String Unit)
    (runnerEvents : List Event) (runError : Option String) (session_id : String) :
    ∃ cs, (∀ f ∈ cs, isContentFrame f = true) ∧
      streamWithPersistence setupResult runnerEvents runError session_id =
        cs ++ (match setupResult with
               | .ok _ => [Frame.doneFrame]
               | .error _ => []) ++ [Frame.sessionIdFrame session_id] ∧
      (∀ msg, setupResult = .error msg →
        cs = [.contentFrame "Error: Failed to initialize chat session."]) ∧
      (∀ msg u, setupResult = .ok u → runError = some msg →
        cs.getLast? = some (.contentFrame ("Error: " ++ msg))) := by
  cases setupResult with
  | error msg =>
      refine ⟨[.contentFrame "Error: Failed to initialize chat session."], ?_, rfl, ?_, ?_⟩
      · intro f hf
        rw [List.mem_singleton.mp hf]
        rfl
      · intro _ _
        rfl
      · intro _ u hu
        exact absurd hu (by simp)
  | ok u =>
      refine ⟨runnerEvents.flatMap eventTextFrames ++
        (match runError with
         | some m => [Frame.contentFrame ("Error: " ++ m)]
         | none => []), ?_, ?_, ?_, ?_⟩
      · intro f hf
        rcases List.mem_append.mp hf with hf | hf
        · obtain ⟨e, _, he⟩ := List.mem_flatMap.mp hf
          exact eventTextFrames_content e f he
        · cases runError with
          | some m =>
              simp only [List.mem_singleton] at hf
              rw [hf]
              rfl
          | none => simp at hf
      · simp [streamWithPersistence, streamGenerator, List.append_assoc]
      · intro m hm
        exact absurd hm (by simp)
      · intro m u' _ hre
        rw [hre, getLast?_snoc]

/-- C9 counterexample: on a successful empty run the stream is
`[DONE]` then `{session_id}` — the sentinel precedes the session-id frame,
so the claimed shape (content frames, session id, sentinel last) is
violated. -/
theorem c9_counterexample :
    ¬ claimedStreamShape (streamWithPersistence (.ok ()) [] none "sess-1") "sess-1" := by
  intro h
  obtain ⟨cs, hall, heq⟩ := h
  rw [show streamWithPersistence (.ok ()) [] none "sess-1" =
    [Frame.doneFrame, Frame.sessionIdFrame "sess-1"] from rfl] at heq
  rcases cs with _ | ⟨c1, cs⟩
  · simp at heq
  · rcases cs with _ | ⟨c2, cs⟩
    · simp at heq
    · simp at heq

/-- C9 witness: a setup failure still produces a readable error frame and the
trailing session-id frame, and a successful run with a mid-stream failure
ends its content prefix with the error frame. -/
theorem c9_stream_witness :
    streamWithPersistence (.error "db down") [] none "s1" =
      [.contentFrame "Error: Failed to initialize chat session.", .sessionIdFrame "s1"] ∧
    ∃ cs, (∀ f ∈ cs, isContentFrame f = true) ∧
      streamWithPersistence (.ok ()) [⟨"model", some ⟨"model", [.text "partial"]⟩⟩]
          (some "tool crashed") "s2" =
        cs ++ (match (Except.ok () : Except String Unit) with
               | .ok _ => [Frame.doneFrame]
               | .error _ => []) ++ [Frame.sessionIdFrame "s2"] ∧
      (∀ msg, (Except.ok () : Except String Unit) = .error msg →
        cs = [.contentFrame "Error: Failed to initialize chat session."]) ∧
      (∀ msg u, (Except.ok () : Except String Unit) = .ok u → some "tool crashed" = some msg →
        cs.getLast? = some (.contentFrame ("Error: " ++ msg))) :=
  ⟨rfl, c9_stream_frames_amended (.ok ()) [⟨"model", some ⟨"model", [.text "partial"]⟩⟩]
    (some "tool crashed") "s2"⟩

end Lyzr
